import Mathlib

/-!
Shallow embedding of the wavry load/soak driver
(`src/scripts/lib/control-plane-load-driver.py`) and of the TCP chaos proxy
(`src/scripts/lib/tcp-chaos-proxy.py`).

Python floats are modelled as rationals, Python strings as `String` /
`List Char`, and every network interaction is modelled by passing the
transport outcome of a call as an explicit argument.  Wall-clock time in
the soak loop is modelled by an explicit elapsed clock advanced by the
measured wave durations and sleeps.
-/

namespace Wavry

/-! ## Definitions -/

/-! ### Percentile (`percentile`) -/

/-- Truncation toward zero on rationals, modelling Python `int(x)` applied
to a float value. -/
def ratTrunc (q : ℚ) : ℤ := if 0 ≤ q then ⌊q⌋ else -⌊-q⌋

/-- Python sequence indexing `xs[i]`: a negative index counts from the end,
an out-of-range index raises `IndexError`, modelled as `none`. -/
def pyGet (xs : List ℚ) (i : ℤ) : Option ℚ :=
  if 0 ≤ i then xs[i.toNat]?
  else if (-i).toNat ≤ xs.length then xs[xs.length - (-i).toNat]? else none

/-- Python's `sorted` on a list of rationals: ascending stable sort. -/
def pySorted (values : List ℚ) : List ℚ := values.insertionSort (· ≤ ·)

/-- Model of `percentile` from `control-plane-load-driver.py`: an empty sample list
yields `0.0`; otherwise the values are sorted ascending and the element at
index `int((len(ordered) - 1) * pct)` is selected. -/
def percentile (values : List ℚ) (pct : ℚ) : Option ℚ :=
  if values.isEmpty then some 0
  else
    let ordered := pySorted values
    let idx := ratTrunc (((ordered.length : ℚ) - 1) * pct)
    pyGet ordered idx

/-! ### Endpoint generation (`generate_endpoint`) -/

/-- The character rendering a single decimal digit, as produced by
Python's `str` on an integer. -/
def digitChar (d : Nat) : Char := Char.ofNat (48 + d)

/-- The list of characters of Python's `str(n)` for a natural number. -/
def natStr (n : Nat) : List Char :=
  if n = 0 then ['0'] else ((Nat.digits 10 n).map digitChar).reverse

/-- Model of `generate_endpoint` from `control-plane-load-driver.py`: the f-string
`"{a}.{b}.{c}.{d}:{port}"` is modelled as the concatenation of the decimal
renderings of the components with literal separator characters. -/
def generate_endpoint (index : Nat) : String :=
  let a := 10
  let b := index % 200 + 1
  let c := index / 200 % 200 + 1
  let d := 1
  let port := 20000 + index % 20000
  ⟨natStr a ++ ('.' :: (natStr b ++ ('.' :: (natStr c ++
      ('.' :: (natStr d ++ (':' :: natStr port)))))))⟩

/-- The part of a generated endpoint before the `:` separator. -/
def endpointHead (index : Nat) : List Char :=
  natStr 10 ++ ('.' :: (natStr (index % 200 + 1) ++
    ('.' :: (natStr (index / 200 % 200 + 1) ++ ('.' :: natStr 1)))))

/-- The value of a digit character, inverse of `digitChar` below 10. -/
def charVal (c : Char) : Nat := c.toNat - 48

/-! ### HTTP call layer of the driver -/

/-- The transport-level outcome of one HTTP POST issued through
`urllib.request.urlopen` in `post_json`: a response object, an `HTTPError`
carrying a real status code, or any other exception (connection refused,
timeout, DNS failure, ...). -/
inductive PostOutcome where
  | success (status : Nat) (body : String)
  | httpError (code : Nat) (body : String)
  | transportError
deriving DecidableEq

/-- Model of `post_json`: it returns `(status, elapsed_ms, body)`: an `HTTPError` yields
its real code, while any other exception is absorbed as status `0` with an
empty body; the elapsed wall-clock time of the attempt is measured in every
path. -/
def post_json (o : PostOutcome) (elapsed_ms : ℚ) : Nat × ℚ × String :=
  match o with
  | .success st body => (st, elapsed_ms, body)
  | .httpError code body => (code, elapsed_ms, body)
  | .transportError => (0, elapsed_ms, "")

/-- The transport-level outcome of the unauthenticated GET performed by
`get_json`. -/
inductive GetOutcome (α : Type) where
  | ok (value : α)
  | transportError

/-- Model of `get_json`: it calls `urlopen` with no exception handler: a transport error
propagates to the caller, modelled as `Except.error`. -/
def get_json {α : Type} (o : GetOutcome α) : Except Unit α :=
  match o with
  | .ok v => Except.ok v
  | .transportError => Except.error ()

/-- Model of `register_one`: it posts the fixed registration payload through
`post_json` and returns `(ok, elapsed_ms, status)` where the success flag
is `200 <= status < 300`. -/
def register_one (o : PostOutcome) (elapsed_ms : ℚ) : Bool × ℚ × Nat :=
  let r := post_json o elapsed_ms
  (decide (200 ≤ r.1 ∧ r.1 < 300), r.2.1, r.1)

/-- Model of `heartbeat_one`: it posts the heartbeat payload through `post_json` and
derives its success flag the same way as `register_one`. -/
def heartbeat_one (o : PostOutcome) (elapsed_ms : ℚ) : Bool × ℚ × Nat :=
  let r := post_json o elapsed_ms
  (decide (200 ≤ r.1 ∧ r.1 < 300), r.2.1, r.1)

/-- The result drain of the register phase in `main`: futures are consumed
in completion order; each completed call appends its latency to the sample
list and increments the success counter when its flag is set. -/
def drainResults (rs : List (Bool × ℚ × Nat)) : Nat × List ℚ :=
  rs.foldl (fun acc r => (if r.1 then acc.1 + 1 else acc.1, acc.2 ++ [r.2.1])) (0, [])

/-- The rate `register_success_rate = register_success / relay_count`. -/
def success_rate (succ relayCount : Nat) : ℚ := (succ : ℚ) / (relayCount : ℚ)

/-! ### Heartbeat soak loop of the driver -/

/-- One executed heartbeat wave: the elapsed clock at its start, the relay
ids it submits one heartbeat call for, its measured duration, and the sleep
performed after it. -/
structure Wave where
  startAt : ℚ
  calls : List String
  duration : ℚ
  sleepAfter : ℚ

/-- The soak loop of `main`: while the elapsed clock is below the soak
duration, run one wave (one heartbeat call per relay id), then sleep for
`interval - elapsed` when that is positive.  The durations of successive
waves are supplied as a list, the model's stand-in for wall-clock
measurement; the elapsed clock advances by each wave's duration plus its
sleep. -/
def soakWaves (soakSeconds intervalSeconds : ℚ) (relayIds : List String) :
    ℚ → List ℚ → List Wave
  | _, [] => []
  | t, d :: rest =>
    if t < soakSeconds then
      let slp := if intervalSeconds - d > 0 then intervalSeconds - d else 0
      ⟨t, relayIds, d, slp⟩ ::
        soakWaves soakSeconds intervalSeconds relayIds (t + d + slp) rest
    else []

/-- The counter `heartbeat_total` accumulated over the waves: each wave contributes one
call per relay id submitted. -/
def heartbeatTotal (waves : List Wave) : Nat :=
  (waves.map (fun w => w.calls.length)).sum

/-- The rate `heartbeat_success_rate = (heartbeat_success / heartbeat_total) if
heartbeat_total else 0.0`. -/
def heartbeat_success_rate (succ total : Nat) : ℚ :=
  if total ≠ 0 then (succ : ℚ) / (total : ℚ) else 0

/-! ### SLO evaluation and exit policy of the driver -/

/-- The three SLO thresholds of the driver configuration. -/
structure SloConfig where
  min_success_rate : ℚ
  max_register_p95_ms : ℚ
  max_heartbeat_p95_ms : ℚ

/-- The aggregate statistics available when `main` reaches its SLO
checks. -/
structure RunStats where
  register_success_rate : ℚ
  register_p95_ms : ℚ
  heartbeat_success_rate : ℚ
  heartbeat_p95_ms : ℚ
  missing : List String

/-- The five SLO checks of `main`, in source order. -/
inductive SloViolation where
  | registerRate
  | heartbeatRate
  | registerP95
  | heartbeatP95
  | missingRelays
deriving DecidableEq

/-- One observable output action of the tail of `main`: the summary JSON on
stdout, or one diagnostic line on stderr. -/
inductive OutputEv where
  | summaryJson (s : RunStats)
  | violationLine (v : SloViolation)

/-- The list `missing = [relay_id for relay_id in relay_ids if relay_id not in
registered_ids]`. -/
def missingOf (relayIds registeredIds : List String) : List String :=
  relayIds.filter (fun r => !(registeredIds.contains r))

/-- The tail of `main` after all statistics are computed: print the summary
object, then evaluate the five SLO checks in order, emitting one stderr
line and returning 1 at the first violated check, else returning 0. -/
def mainEpilogue (cfg : SloConfig) (s : RunStats) : List OutputEv × Nat :=
  if s.register_success_rate < cfg.min_success_rate then
    ([.summaryJson s, .violationLine .registerRate], 1)
  else if s.heartbeat_success_rate < cfg.min_success_rate then
    ([.summaryJson s, .violationLine .heartbeatRate], 1)
  else if s.register_p95_ms > cfg.max_register_p95_ms then
    ([.summaryJson s, .violationLine .registerP95], 1)
  else if s.heartbeat_p95_ms > cfg.max_heartbeat_p95_ms then
    ([.summaryJson s, .violationLine .heartbeatP95], 1)
  else if s.missing ≠ [] then
    ([.summaryJson s, .violationLine .missingRelays], 1)
  else ([.summaryJson s], 0)

/-! ### Chaos proxy (`tcp-chaos-proxy.py`) -/

/-- The result of one `reader.read(65536)` performed by `pipe` on its own
source: a chunk of bytes, where an empty chunk signals end-of-stream, or an
I/O error raised by the read. -/
inductive ReadEv where
  | chunk (data : List Nat)
  | ioError

/-- What a run of `pipe` did: the bytes written through to its sink, in
order, and whether the `finally` block attempted to close the sink
socket. -/
structure PipeResult where
  written : List Nat
  sinkCloseAttempted : Bool

/-- Model of `pipe` from `tcp-chaos-proxy.py`: repeatedly read a chunk from the
source and write it through; an empty chunk (end-of-stream) or an exception
ends the loop; the `finally` block closes the sink socket inside
`contextlib.suppress`, so `pipe` returns normally even when the close
itself raises (`closeRaises`). -/
def pipe (closeRaises : Bool) : List ReadEv → PipeResult
  | [] => ⟨[], true⟩
  | .ioError :: _ => ⟨[], true⟩
  | .chunk d :: rest =>
    if d = [] then ⟨[], true⟩
    else ⟨d ++ (pipe closeRaises rest).written, (pipe closeRaises rest).sinkCloseAttempted⟩

/-- Whether a read event is a proper (non-empty, non-error) data chunk. -/
def isDataChunk : ReadEv → Bool
  | .chunk d => !d.isEmpty
  | .ioError => false

/-- The payload of a read event. -/
def chunkData : ReadEv → List Nat
  | .chunk d => d
  | .ioError => []

/-- Specification-side view of a source stream: the concatenation, in
order, of the data chunks strictly before the first end-of-stream or
error. -/
def sourceBytes (evs : List ReadEv) : List Nat :=
  ((evs.takeWhile isDataChunk).map chunkData).flatten

/-- The fate of one accepted proxy connection. -/
inductive SessionOutcome where
  | droppedClient
  | dialFailedClosed (delayedMs : Nat)
  | piped (delayedMs : Nat) (toUpstream : List Nat) (toClient : List Nat)
deriving DecidableEq

/-- The `handle` coroutine of `tcp-chaos-proxy.py` for the connection with
1-based global sequence number `connIdx`: drop the connection when the drop
period is enabled and divides the sequence number; otherwise optionally
delay, dial upstream (outcome `dialOk`), and on success run the two pipe
directions over the given read streams. -/
def handle (dropEvery delayMs : Nat) (connIdx : Nat) (dialOk : Bool)
    (clientReads upstreamReads : List ReadEv) : SessionOutcome :=
  if 0 < dropEvery ∧ connIdx % dropEvery = 0 then .droppedClient
  else
    let delayed := if 0 < delayMs then delayMs else 0
    if dialOk then
      .piped delayed (pipe false clientReads).written (pipe false upstreamReads).written
    else .dialFailedClosed delayed

/-- Whether the session reached the upstream dial. -/
def SessionOutcome.dialed : SessionOutcome → Bool
  | .droppedClient => false
  | .dialFailedClosed _ => true
  | .piped _ _ _ => true

/-- The bytes that reached the upstream side in a session. -/
def SessionOutcome.upstreamBytes : SessionOutcome → List Nat
  | .piped _ u _ => u
  | _ => []

/-- The delay applied before the dial in a session. -/
def SessionOutcome.delayApplied : SessionOutcome → Nat
  | .droppedClient => 0
  | .dialFailedClosed d => d
  | .piped d _ _ => d

/-! ## Theorems -/

/-! ### Percentile lemmas, C2 and C10 -/

lemma pySorted_perm (l : List ℚ) : (pySorted l).Perm l :=
  List.perm_insertionSort _ _

lemma pySorted_sorted (l : List ℚ) : (pySorted l).Sorted (· ≤ ·) :=
  List.sorted_insertionSort _ _

lemma pySorted_length (l : List ℚ) : (pySorted l).length = l.length :=
  (pySorted_perm l).length_eq

lemma percentile_floor_nonneg {values : List ℚ} {pct : ℚ}
    (hne : values ≠ []) (h0 : 0 ≤ pct) :
    0 ≤ ((values.length : ℚ) - 1) * pct := by
  have h1 : 1 ≤ values.length := List.length_pos.mpr hne
  have : (1 : ℚ) ≤ (values.length : ℚ) := by exact_mod_cast h1
  exact mul_nonneg (by linarith) h0

lemma percentile_floor_lt {values : List ℚ} {pct : ℚ}
    (hne : values ≠ []) (h0 : 0 ≤ pct) (h1 : pct ≤ 1) :
    (⌊((values.length : ℚ) - 1) * pct⌋).toNat < values.length := by
  have hlen : 1 ≤ values.length := List.length_pos.mpr hne
  have hc : (1 : ℚ) ≤ (values.length : ℚ) := by exact_mod_cast hlen
  have hub : ((values.length : ℚ) - 1) * pct ≤ (values.length : ℚ) - 1 :=
    mul_le_of_le_one_right (by linarith) h1
  have hfl : ⌊((values.length : ℚ) - 1) * pct⌋ ≤ ⌊(values.length : ℚ) - 1⌋ :=
    Int.floor_le_floor hub
  have hfi : ⌊(values.length : ℚ) - 1⌋ = (values.length : ℤ) - 1 := by
    rw [show (1 : ℚ) = ((1 : ℤ) : ℚ) by norm_num, Int.floor_sub_int, Int.floor_natCast]
  rw [hfi] at hfl
  have hnn : 0 ≤ ⌊((values.length : ℚ) - 1) * pct⌋ :=
    Int.floor_nonneg.mpr (percentile_floor_nonneg hne h0)
  omega

lemma ratTrunc_of_nonneg {q : ℚ} (h : 0 ≤ q) : ratTrunc q = ⌊q⌋ := by
  simp [ratTrunc, h]

lemma percentile_eq_getElem {values : List ℚ} {pct : ℚ}
    (hne : values ≠ []) (h0 : 0 ≤ pct) :
    percentile values pct =
      (pySorted values)[(⌊((values.length : ℚ) - 1) * pct⌋).toNat]? := by
  have hprod := percentile_floor_nonneg hne h0
  have hfl : 0 ≤ ⌊((values.length : ℚ) - 1) * pct⌋ := Int.floor_nonneg.mpr hprod
  unfold percentile
  rw [if_neg (by simpa [List.isEmpty_iff] using hne)]
  simp only [pySorted_length]
  rw [ratTrunc_of_nonneg hprod]
  unfold pyGet
  rw [if_pos hfl]

/-- Claim C2: `percentile` yields `0.0` on an empty sample list for every
`pct`; on the concrete fixtures `[10]` and `[10, 20, 30, 40]` with
`pct = 0.95` it yields `10` and `30`; and on every non-empty list with
`0 ≤ pct ≤ 1` it returns the element of the ascending-sorted list at
floor-index `(n - 1) * pct`. -/
theorem C2_percentile_spec :
    (∀ p : ℚ, percentile [] p = some 0)
    ∧ percentile [10] (95/100) = some 10
    ∧ percentile [10, 20, 30, 40] (95/100) = some 30
    ∧ ∀ (values : List ℚ) (pct : ℚ), values ≠ [] → 0 ≤ pct → pct ≤ 1 →
        ∃ sorted : List ℚ, sorted.Perm values ∧ sorted.Sorted (· ≤ ·) ∧
          ∃ h : (⌊((values.length : ℚ) - 1) * pct⌋).toNat < sorted.length,
            percentile values pct =
              some (sorted.get ⟨(⌊((values.length : ℚ) - 1) * pct⌋).toNat, h⟩) := by
  refine ⟨fun p => rfl, ?_, ?_, ?_⟩
  · norm_num [percentile, pySorted, ratTrunc, pyGet, List.insertionSort, List.orderedInsert]
  · norm_num [percentile, pySorted, ratTrunc, pyGet, List.insertionSort, List.orderedInsert]
    decide
  · intro values pct hne h0 h1
    refine ⟨pySorted values, pySorted_perm values, pySorted_sorted values, ?_, ?_⟩
    · rw [pySorted_length]
      exact percentile_floor_lt hne h0 h1
    · rw [percentile_eq_getElem hne h0]
      exact (List.getElem?_eq_getElem _).trans rfl

/-- Witness for C2: the general clause applied to the concrete input
`values = [10, 20]`, `pct = 1`. -/
theorem C2_percentile_spec_witness :
    ∃ sorted : List ℚ, sorted.Perm [10, 20] ∧ sorted.Sorted (· ≤ ·) ∧
      ∃ h : (⌊((([10, 20] : List ℚ).length : ℚ) - 1) * 1⌋).toNat < sorted.length,
        percentile [10, 20] 1 =
          some (sorted.get ⟨(⌊((([10, 20] : List ℚ).length : ℚ) - 1) * 1⌋).toNat, h⟩) :=
  C2_percentile_spec.2.2.2 [10, 20] 1 (by decide) (by decide) (by decide)

/-- Claim C10: For every non-empty sample list and `0 ≤ pct ≤ 1`, the index
`int((n - 1) * pct)` computed by `percentile` is within bounds of the
sorted list, so `percentile` succeeds and its result is an element of the
input list. -/
theorem C10_percentile_safe :
    ∀ (values : List ℚ) (pct : ℚ), values ≠ [] → 0 ≤ pct → pct ≤ 1 →
      (ratTrunc (((values.length : ℚ) - 1) * pct)).toNat < values.length
      ∧ ∃ x ∈ values, percentile values pct = some x := by
  intro values pct hne h0 h1
  have hprod := percentile_floor_nonneg hne h0
  have hlt := percentile_floor_lt hne h0 h1
  refine ⟨by rwa [ratTrunc_of_nonneg hprod], ?_⟩
  have hlt' : (⌊((values.length : ℚ) - 1) * pct⌋).toNat < (pySorted values).length := by
    rwa [pySorted_length]
  refine ⟨(pySorted values).get ⟨_, hlt'⟩, ?_, ?_⟩
  · exact (pySorted_perm values).mem_iff.mp (List.get_mem _ _ hlt')
  · rw [percentile_eq_getElem hne h0]
    exact (List.getElem?_eq_getElem _).trans rfl

/-- Witness for C10 at `values = [10, 20, 30]`, `pct = 0`. -/
theorem C10_percentile_safe_witness :
    (ratTrunc (((([10, 20, 30] : List ℚ).length : ℚ) - 1) * 0)).toNat <
        ([10, 20, 30] : List ℚ).length
    ∧ ∃ x ∈ ([10, 20, 30] : List ℚ), percentile [10, 20, 30] 0 = some x :=
  C10_percentile_safe [10, 20, 30] 0 (by decide) (by decide) (by decide)

/-! ### Endpoint lemmas and C1 -/

lemma generate_endpoint_data (i : Nat) :
    (generate_endpoint i).data = endpointHead i ++ (':' :: natStr (20000 + i % 20000)) := by
  simp [generate_endpoint, endpointHead, List.append_assoc]

lemma digitChar_toNat {d : Nat} (hd : d < 10) : (digitChar d).toNat = 48 + d := by
  interval_cases d <;> rfl

lemma mem_natStr_toNat {n : Nat} {ch : Char} (h : ch ∈ natStr n) :
    48 ≤ ch.toNat ∧ ch.toNat ≤ 57 := by
  unfold natStr at h
  split at h
  · rw [List.mem_singleton] at h
    subst h
    decide
  · rw [List.mem_reverse] at h
    obtain ⟨d, hd, rfl⟩ := List.mem_map.mp h
    have hlt : d < 10 := Nat.digits_lt_base (by norm_num) hd
    rw [digitChar_toNat hlt]
    omega

lemma natStr_not_dot {n : Nat} : '.' ∉ natStr n := by
  intro h
  have h2 := mem_natStr_toNat h
  have h3 : ('.').toNat = 46 := rfl
  omega

lemma natStr_not_colon {n : Nat} : ':' ∉ natStr n := by
  intro h
  have h2 := mem_natStr_toNat h
  have h3 : (':').toNat = 58 := rfl
  omega

lemma charVal_digitChar {d : Nat} (hd : d < 10) : charVal (digitChar d) = d := by
  rw [charVal, digitChar_toNat hd]
  omega

lemma natStr_inj {m n : Nat} (hm : m ≠ 0) (hn : n ≠ 0) (h : natStr m = natStr n) :
    m = n := by
  unfold natStr at h
  rw [if_neg hm, if_neg hn] at h
  have h2 : (Nat.digits 10 m).map digitChar = (Nat.digits 10 n).map digitChar :=
    List.reverse_injective h
  have h3 : (Nat.digits 10 m).map (fun d => charVal (digitChar d)) =
      (Nat.digits 10 n).map (fun d => charVal (digitChar d)) := by
    simpa [List.map_map, Function.comp] using congrArg (List.map charVal) h2
  have hid : ∀ k : Nat, ∀ d ∈ Nat.digits 10 k, charVal (digitChar d) = d :=
    fun k d hd => charVal_digitChar (Nat.digits_lt_base (by norm_num) hd)
  rw [List.map_congr_left (hid m), List.map_congr_left (hid n)] at h3
  have h4 : Nat.digits 10 m = Nat.digits 10 n := by simpa using h3
  exact Nat.digits_inj_iff.mp h4

lemma natStr_port_length {p : Nat} (h1 : 20000 ≤ p) (h2 : p < 100000) :
    (natStr p).length = 5 := by
  have hp : p ≠ 0 := by omega
  have hlog : Nat.log 10 p = 4 :=
    Nat.log_eq_of_pow_le_of_lt_pow (by norm_num; omega) (by norm_num; omega)
  unfold natStr
  rw [if_neg hp, List.length_reverse, List.length_map,
    Nat.digits_len 10 p (by norm_num) hp, hlog]

lemma append_sep_inj {sep : Char} :
    ∀ (p₁ : List Char) {p₂ x y : List Char}, sep ∉ p₁ → sep ∉ p₂ →
      p₁ ++ (sep :: x) = p₂ ++ (sep :: y) → p₁ = p₂ ∧ x = y := by
  intro p₁
  induction p₁ with
  | nil =>
    intro p₂ x y _ h2 heq
    cases p₂ with
    | nil => simpa using heq
    | cons b t =>
      rw [List.nil_append, List.cons_append, List.cons.injEq] at heq
      exact absurd (heq.1 ▸ List.mem_cons_self b t) h2
  | cons a t ih =>
    intro p₂ x y h1 h2 heq
    cases p₂ with
    | nil =>
      rw [List.nil_append, List.cons_append, List.cons.injEq] at heq
      exact absurd (heq.1 ▸ List.mem_cons_self a t) h1
    | cons b t2 =>
      rw [List.cons_append, List.cons_append, List.cons.injEq] at heq
      have h1t : sep ∉ t := fun hmem => h1 (List.mem_cons_of_mem a hmem)
      have h2t : sep ∉ t2 := fun hmem => h2 (List.mem_cons_of_mem b hmem)
      obtain ⟨hp, hxy⟩ := ih h1t h2t heq.2
      exact ⟨by rw [heq.1, hp], hxy⟩

lemma sep_block_prefix_eq {sep : Char} {p₁ p₂ q₁ q₂ : List Char}
    (h1 : sep ∉ p₁) (h2 : sep ∉ p₂) (hq : q₁.length = q₂.length)
    (hpre : (p₁ ++ (sep :: q₁)) <+: (p₂ ++ (sep :: q₂))) :
    p₁ = p₂ ∧ q₁ = q₂ := by
  obtain ⟨r, hr⟩ := hpre
  rw [List.append_assoc, List.cons_append] at hr
  obtain ⟨hp, hqr⟩ := append_sep_inj p₁ h1 h2 hr
  have hlen : q₁.length + r.length = q₂.length := by
    rw [← List.length_append, hqr]
  have hrnil : r = [] := List.length_eq_zero.mp (by omega)
  subst hrnil
  rw [List.append_nil] at hqr
  exact ⟨hp, hqr⟩

lemma colon_not_mem_endpointHead (i : Nat) : ':' ∉ endpointHead i := by
  intro h
  unfold endpointHead at h
  simp only [List.mem_append, List.mem_cons] at h
  rcases h with h | h | h | h | h | h | h <;>
    first
      | exact natStr_not_colon h
      | exact absurd h (by decide)

lemma endpointHead_inj {i j : Nat} (h : endpointHead i = endpointHead j) :
    i % 200 = j % 200 ∧ i / 200 % 200 = j / 200 % 200 := by
  unfold endpointHead at h
  have h1 := List.append_cancel_left h
  rw [List.cons.injEq] at h1
  obtain ⟨hb, h2⟩ := append_sep_inj _ natStr_not_dot natStr_not_dot h1.2
  obtain ⟨hc, _⟩ := append_sep_inj _ natStr_not_dot natStr_not_dot h2
  have hb2 : i % 200 + 1 = j % 200 + 1 := natStr_inj (by omega) (by omega) hb
  have hc2 : i / 200 % 200 + 1 = j / 200 % 200 + 1 := natStr_inj (by omega) (by omega) hc
  omega

lemma endpoint_data_inj {i j : Nat} (hi : i < 40000) (hj : j < 40000)
    (h : (generate_endpoint i).data = (generate_endpoint j).data) : i = j := by
  rw [generate_endpoint_data, generate_endpoint_data] at h
  obtain ⟨hhead, hport⟩ :=
    append_sep_inj _ (colon_not_mem_endpointHead i) (colon_not_mem_endpointHead j) h
  obtain ⟨hbmod, hcmod⟩ := endpointHead_inj hhead
  omega

lemma endpoint_data_prefix_eq {i j : Nat}
    (hpre : (generate_endpoint i).data <+: (generate_endpoint j).data) :
    (generate_endpoint i).data = (generate_endpoint j).data := by
  rw [generate_endpoint_data, generate_endpoint_data] at hpre ⊢
  have hlen : (natStr (20000 + i % 20000)).length = (natStr (20000 + j % 20000)).length := by
    rw [natStr_port_length (by omega) (by omega), natStr_port_length (by omega) (by omega)]
  obtain ⟨hp, hq⟩ := sep_block_prefix_eq (colon_not_mem_endpointHead i)
    (colon_not_mem_endpointHead j) hlen hpre
  rw [hp, hq]

/-- Claim C1: For distinct relay indices `i ≠ j` below the covered address
space of `200 * 200 = 40000` indices, `generate_endpoint i` and
`generate_endpoint j` are distinct strings and neither is a string-prefix
of the other (so for every relay count `N` with `1 ≤ N ≤ 40000` the `N`
generated strings are pairwise distinct and prefix-free). -/
theorem C1_generate_endpoint_distinct_prefix_free :
    ∀ i j : Nat, i < 40000 → j < 40000 → i ≠ j →
      generate_endpoint i ≠ generate_endpoint j
      ∧ ¬ ((generate_endpoint i).data <+: (generate_endpoint j).data) := by
  intro i j hi hj hne
  constructor
  · intro heq
    exact hne (endpoint_data_inj hi hj (congrArg String.data heq))
  · intro hpre
    exact hne (endpoint_data_inj hi hj (endpoint_data_prefix_eq hpre))

/-- Witness for C1 at the concrete index pair `(0, 1)`. -/
theorem C1_generate_endpoint_distinct_prefix_free_witness :
    generate_endpoint 0 ≠ generate_endpoint 1
    ∧ ¬ ((generate_endpoint 0).data <+: (generate_endpoint 1).data) :=
  C1_generate_endpoint_distinct_prefix_free 0 1 (by decide) (by decide) (by decide)

/-! ### Transport error handling, C5 -/

/-- Counterexample to C5 as stated: on the post-soak relay listing, a
transport error is not absorbed by `get_json` — it propagates out of the
call (there is no exception handler in `get_json` nor around its call site
in `main`), aborting the run. -/
theorem C5_counterexample_get_json_propagates :
    get_json (GetOutcome.transportError : GetOutcome (List String)) = Except.error () := rfl

/-- Claim C5, amended: Transport-level failures on the driver's POST
operations (register and heartbeat, both built on `post_json`) are absorbed
as failed calls with status 0 and never propagate; but on the post-soak GET
listing (`get_json`) a transport error propagates out and aborts the run. -/
theorem C5_transport_error_handling_amended :
    (∀ e : ℚ, post_json PostOutcome.transportError e = (0, e, ""))
    ∧ (∀ e : ℚ, (register_one PostOutcome.transportError e).1 = false
        ∧ (register_one PostOutcome.transportError e).2.2 = 0
        ∧ (heartbeat_one PostOutcome.transportError e).1 = false
        ∧ (heartbeat_one PostOutcome.transportError e).2.2 = 0)
    ∧ (∀ (α : Type) (v : α), get_json (GetOutcome.ok v) = Except.ok v)
    ∧ (∀ α : Type, get_json (GetOutcome.transportError : GetOutcome α) = Except.error ()) :=
  ⟨fun _ => rfl, fun _ => ⟨rfl, rfl, rfl, rfl⟩, fun _ _ => rfl, fun _ => rfl⟩

/-! ### Register-phase aggregation, C7 -/

lemma drain_foldl (rs : List (Bool × ℚ × Nat)) :
    ∀ (n : Nat) (acc : List ℚ),
      rs.foldl (fun a r => (if r.1 then a.1 + 1 else a.1, a.2 ++ [r.2.1])) (n, acc)
        = (n + rs.countP (fun r => r.1), acc ++ rs.map (fun r => r.2.1)) := by
  induction rs with
  | nil =>
    intro n acc
    simp
  | cons r t ih =>
    intro n acc
    rw [List.foldl_cons, ih]
    cases hr : r.1
    all_goals simp [List.countP_cons, hr, List.append_assoc]
    all_goals omega

lemma drainResults_eq (rs : List (Bool × ℚ × Nat)) :
    drainResults rs = (rs.countP (fun r => r.1), rs.map (fun r => r.2.1)) := by
  unfold drainResults
  rw [drain_foldl]
  simp

lemma percentile_congr_perm {l₁ l₂ : List ℚ} (h : l₁.Perm l₂) (p : ℚ) :
    percentile l₁ p = percentile l₂ p := by
  by_cases h1 : l₁ = []
  · subst h1
    rw [h.symm.eq_nil]
  · have hs : pySorted l₁ = pySorted l₂ :=
      List.eq_of_perm_of_sorted ((pySorted_perm l₁).trans (h.trans (pySorted_perm l₂).symm))
        (pySorted_sorted l₁) (pySorted_sorted l₂)
    have h2 : l₂ ≠ [] := by
      intro hnil
      subst hnil
      exact h1 h.eq_nil
    have he : l₁.isEmpty = l₂.isEmpty := by
      cases l₁ <;> cases l₂ <;> simp_all
    unfold percentile
    rw [hs, he]

/-- Claim C7: A register call is a success exactly when its HTTP status is in
`[200, 300)`; the drained aggregates are independent of completion order:
for any completion order (a permutation of the per-call results), the
success count equals the number of 2xx calls, every call contributes
exactly one latency sample, the success rate is `successes / relay_count`,
and the register p95 computed from the drained samples is that of the
calls' latencies. -/
theorem C7_register_aggregation :
    (∀ (o : PostOutcome) (e : ℚ),
        ((register_one o e).1 = true ↔
          200 ≤ (post_json o e).1 ∧ (post_json o e).1 < 300))
    ∧ ∀ (results order : List (Bool × ℚ × Nat)), order.Perm results →
        (drainResults order).1 = results.countP (fun r => r.1)
        ∧ (drainResults order).2.length = results.length
        ∧ (drainResults order).2.Perm (results.map (fun r => r.2.1))
        ∧ (∀ relayCount : Nat, success_rate (drainResults order).1 relayCount
            = (results.countP (fun r => r.1) : ℚ) / (relayCount : ℚ))
        ∧ ∀ pct : ℚ, percentile (drainResults order).2 pct
            = percentile (results.map (fun r => r.2.1)) pct := by
  constructor
  · intro o e
    simp [register_one]
  · intro results order hperm
    rw [drainResults_eq]
    refine ⟨hperm.countP_eq _, ?_, hperm.map _, ?_, ?_⟩
    · rw [List.length_map, hperm.length_eq]
    · intro relayCount
      rw [success_rate, hperm.countP_eq]
    · intro pct
      exact percentile_congr_perm (hperm.map _) pct

/-- Witness for C7: the aggregation clause applied to the singleton result
list `[(true, 5, 200)]` drained in its own order. -/
theorem C7_register_aggregation_witness :
    (drainResults [((true : Bool), (5 : ℚ), (200 : Nat))]).1 =
        [((true : Bool), (5 : ℚ), (200 : Nat))].countP (fun r => r.1)
    ∧ (drainResults [((true : Bool), (5 : ℚ), (200 : Nat))]).2.length =
        [((true : Bool), (5 : ℚ), (200 : Nat))].length
    ∧ (drainResults [((true : Bool), (5 : ℚ), (200 : Nat))]).2.Perm
        ([((true : Bool), (5 : ℚ), (200 : Nat))].map (fun r => r.2.1))
    ∧ (∀ relayCount : Nat,
        success_rate (drainResults [((true : Bool), (5 : ℚ), (200 : Nat))]).1 relayCount
          = (([((true : Bool), (5 : ℚ), (200 : Nat))].countP (fun r => r.1) : Nat) : ℚ)
              / (relayCount : ℚ))
    ∧ ∀ pct : ℚ, percentile (drainResults [((true : Bool), (5 : ℚ), (200 : Nat))]).2 pct
        = percentile ([((true : Bool), (5 : ℚ), (200 : Nat))].map (fun r => r.2.1)) pct :=
  C7_register_aggregation.2 [((true : Bool), (5 : ℚ), (200 : Nat))]
    [((true : Bool), (5 : ℚ), (200 : Nat))] (List.Perm.refl _)

/-! ### Soak loop, C6 and C9 -/

lemma sleep_if_eq_max (I d : ℚ) :
    (if I - d > 0 then I - d else 0) = max 0 (I - d) := by
  rcases lt_or_le 0 (I - d) with h | h
  · rw [if_pos h, max_eq_right h.le]
  · rw [if_neg (not_lt.mpr h), max_eq_left h]

lemma soakWaves_mem {S I : ℚ} {relays : List String} :
    ∀ (ds : List ℚ) (t : ℚ), ∀ w ∈ soakWaves S I relays t ds,
      w.startAt < S ∧ w.calls = relays
      ∧ w.sleepAfter = max 0 (I - w.duration) ∧ 0 ≤ w.sleepAfter := by
  intro ds
  induction ds with
  | nil =>
    intro t w hw
    simp [soakWaves] at hw
  | cons d rest ih =>
    intro t w hw
    rw [soakWaves] at hw
    by_cases ht : t < S
    · rw [if_pos ht] at hw
      rcases List.mem_cons.mp hw with rfl | hw
      · refine ⟨ht, rfl, ?_, ?_⟩
        · exact sleep_if_eq_max I d
        · rw [sleep_if_eq_max I d]
          exact le_max_left 0 _
      · exact ih _ w hw
    · rw [if_neg ht] at hw
      simp at hw

/-- Claim C6: A new heartbeat wave starts exactly while the elapsed clock is
below the soak duration; every wave submits one heartbeat call per relay
id; the sleep after a wave is `max(0, interval - wave_elapsed)`, never
negative; and a wave whose duration reaches the interval sleeps `0`, so the
next wave starts immediately at clock `t + duration`. -/
theorem C6_soak_wave_schedule :
    ∀ (S I : ℚ) (relays : List String) (t : ℚ) (ds : List ℚ),
      (∀ w ∈ soakWaves S I relays t ds,
          w.startAt < S ∧ w.calls = relays
          ∧ w.sleepAfter = max 0 (I - w.duration) ∧ 0 ≤ w.sleepAfter)
      ∧ (∀ d rest, ds = d :: rest → (soakWaves S I relays t ds ≠ [] ↔ t < S))
      ∧ (∀ d rest, ds = d :: rest → t < S →
          soakWaves S I relays t ds =
            ⟨t, relays, d, max 0 (I - d)⟩ ::
              soakWaves S I relays (t + d + max 0 (I - d)) rest
          ∧ (I ≤ d → soakWaves S I relays t ds =
              ⟨t, relays, d, 0⟩ :: soakWaves S I relays (t + d) rest)) := by
  intro S I relays t ds
  refine ⟨soakWaves_mem ds t, ?_, ?_⟩
  · rintro d rest rfl
    rw [soakWaves]
    by_cases ht : t < S
    · rw [if_pos ht]
      simp [ht]
    · rw [if_neg ht]
      simp [ht]
  · rintro d rest rfl ht
    have hrw : soakWaves S I relays t (d :: rest) =
        ⟨t, relays, d, max 0 (I - d)⟩ ::
          soakWaves S I relays (t + d + max 0 (I - d)) rest := by
      rw [soakWaves, if_pos ht]
      rw [show (if I - d > 0 then I - d else 0) = max 0 (I - d) from sleep_if_eq_max I d]
    refine ⟨hrw, fun hid => ?_⟩
    have hmax : max 0 (I - d) = 0 := max_eq_left (by linarith)
    rw [hrw, hmax, add_zero]

/-- Witness for C6: the chaining clause at `S = 2`, `I = 1`,
`relays = ["r"]`, `t = 0`, durations `[1]`. -/
theorem C6_soak_wave_schedule_witness :
    soakWaves 2 1 ["r"] 0 [1] ≠ [] ↔ (0 : ℚ) < 2 :=
  (C6_soak_wave_schedule 2 1 ["r"] 0 [1]).2.1 1 [] rfl

/-! ### SLO evaluation, C4 and C9 -/

lemma missingOf_ne_nil_iff (relayIds registeredIds : List String) :
    missingOf relayIds registeredIds ≠ [] ↔ ∃ r ∈ relayIds, r ∉ registeredIds := by
  unfold missingOf
  rw [Ne, List.filter_eq_nil_iff]
  push_neg
  constructor
  · rintro ⟨r, hr, hc⟩
    refine ⟨r, hr, ?_⟩
    simpa using hc
  · rintro ⟨r, hr, hc⟩
    refine ⟨r, hr, ?_⟩
    simpa using hc

/-- Claim C4: The driver exits nonzero iff one of the five SLO conditions
holds; the checks run in source order with the first violated one
determining the single reported stderr cause; the summary is the first
output in every outcome; and the missing-relay condition holds iff some run
relay id is absent from the post-soak listing. -/
theorem C4_slo_exit_policy :
    ∀ (cfg : SloConfig) (s : RunStats),
      ((mainEpilogue cfg s).2 ≠ 0 ↔
        (s.register_success_rate < cfg.min_success_rate
          ∨ s.heartbeat_success_rate < cfg.min_success_rate
          ∨ s.register_p95_ms > cfg.max_register_p95_ms
          ∨ s.heartbeat_p95_ms > cfg.max_heartbeat_p95_ms
          ∨ s.missing ≠ []))
      ∧ (mainEpilogue cfg s).1.head? = some (OutputEv.summaryJson s)
      ∧ (∀ v : SloViolation,
          OutputEv.violationLine v ∈ (mainEpilogue cfg s).1 ↔
            ((v = SloViolation.registerRate
                ∧ s.register_success_rate < cfg.min_success_rate)
              ∨ (v = SloViolation.heartbeatRate
                ∧ ¬ s.register_success_rate < cfg.min_success_rate
                ∧ s.heartbeat_success_rate < cfg.min_success_rate)
              ∨ (v = SloViolation.registerP95
                ∧ ¬ s.register_success_rate < cfg.min_success_rate
                ∧ ¬ s.heartbeat_success_rate < cfg.min_success_rate
                ∧ s.register_p95_ms > cfg.max_register_p95_ms)
              ∨ (v = SloViolation.heartbeatP95
                ∧ ¬ s.register_success_rate < cfg.min_success_rate
                ∧ ¬ s.heartbeat_success_rate < cfg.min_success_rate
                ∧ ¬ s.register_p95_ms > cfg.max_register_p95_ms
                ∧ s.heartbeat_p95_ms > cfg.max_heartbeat_p95_ms)
              ∨ (v = SloViolation.missingRelays
                ∧ ¬ s.register_success_rate < cfg.min_success_rate
                ∧ ¬ s.heartbeat_success_rate < cfg.min_success_rate
                ∧ ¬ s.register_p95_ms > cfg.max_register_p95_ms
                ∧ ¬ s.heartbeat_p95_ms > cfg.max_heartbeat_p95_ms
                ∧ s.missing ≠ [])))
      ∧ ∀ relayIds registeredIds : List String,
          (missingOf relayIds registeredIds ≠ [] ↔ ∃ r ∈ relayIds, r ∉ registeredIds) := by
  intro cfg s
  refine ⟨?_, ?_, ?_, missingOf_ne_nil_iff⟩
  · unfold mainEpilogue
    split_ifs with h1 h2 h3 h4 h5 <;> simp_all
  · unfold mainEpilogue
    split_ifs <;> rfl
  · intro v
    unfold mainEpilogue
    split_ifs with h1 h2 h3 h4 h5 <;>
      simp_all [List.mem_cons, List.mem_singleton, ← not_lt]

/-- Claim C9: When the soak duration is not positive, no heartbeat wave runs,
so `heartbeat_total = 0` and the heartbeat success rate is defined as `0`;
consequently, with a positive minimum success-rate threshold the run always
exits with code 1, and when every other SLO is satisfied the reported cause
is the heartbeat-success-rate check. -/
theorem C9_zero_soak_heartbeat_gate :
    ∀ (S I : ℚ) (relays : List String) (ds : List ℚ), S ≤ 0 →
      soakWaves S I relays 0 ds = []
      ∧ heartbeatTotal (soakWaves S I relays 0 ds) = 0
      ∧ heartbeat_success_rate 0 (heartbeatTotal (soakWaves S I relays 0 ds)) = 0
      ∧ ∀ (cfg : SloConfig) (s : RunStats),
          0 < cfg.min_success_rate →
          s.heartbeat_success_rate = 0 →
          ((mainEpilogue cfg s).2 = 1
            ∧ (¬ s.register_success_rate < cfg.min_success_rate →
                (mainEpilogue cfg s).1 =
                  [OutputEv.summaryJson s, OutputEv.violationLine SloViolation.heartbeatRate])) := by
  intro S I relays ds hS
  have hwaves : soakWaves S I relays 0 ds = [] := by
    cases ds with
    | nil => rfl
    | cons d rest =>
      rw [soakWaves, if_neg (by linarith)]
  refine ⟨hwaves, ?_, ?_, ?_⟩
  · rw [hwaves]
    rfl
  · rw [hwaves]
    rfl
  · intro cfg s hmin hhb
    have hviol : s.heartbeat_success_rate < cfg.min_success_rate := by
      rw [hhb]
      exact hmin
    constructor
    · unfold mainEpilogue
      split_ifs <;> rfl
    · intro hreg
      unfold mainEpilogue
      rw [if_neg hreg, if_pos hviol]

/-- Witness for C9 at `S = 0`, `I = 1`, one relay, one candidate wave
duration, and a configuration whose other SLOs are all satisfied. -/
theorem C9_zero_soak_heartbeat_gate_witness :
    soakWaves 0 1 ["r"] 0 [1] = []
    ∧ (mainEpilogue ⟨1, 400, 450⟩ ⟨1, 0, 0, 0, []⟩).2 = 1
    ∧ (mainEpilogue ⟨1, 400, 450⟩ ⟨1, 0, 0, 0, []⟩).1 =
        [OutputEv.summaryJson ⟨1, 0, 0, 0, []⟩,
          OutputEv.violationLine SloViolation.heartbeatRate] :=
  ⟨(C9_zero_soak_heartbeat_gate 0 1 ["r"] [1] (by decide)).1,
    ((C9_zero_soak_heartbeat_gate 0 1 ["r"] [1] (by decide)).2.2.2
      ⟨1, 400, 450⟩ ⟨1, 0, 0, 0, []⟩ (by decide) rfl).1,
    ((C9_zero_soak_heartbeat_gate 0 1 ["r"] [1] (by decide)).2.2.2
      ⟨1, 400, 450⟩ ⟨1, 0, 0, 0, []⟩ (by decide) rfl).2 (by decide)⟩

/-! ### Chaos proxy, C3 and C8 -/

/-- Claim C8: Each pipe direction writes through exactly the concatenation,
in order and unmodified, of its source's data chunks up to the first
end-of-stream or read error, and in every case — including when closing the
sink raises — it terminates normally having attempted to close the sink
socket. -/
theorem C8_pipe_forwarding :
    ∀ (closeRaises : Bool) (evs : List ReadEv),
      (pipe closeRaises evs).written = sourceBytes evs
      ∧ (pipe closeRaises evs).sinkCloseAttempted = true := by
  intro cr evs
  induction evs with
  | nil => exact ⟨rfl, rfl⟩
  | cons e rest ih =>
    cases e with
    | ioError => exact ⟨rfl, rfl⟩
    | chunk d =>
      by_cases hd : d = []
      · subst hd
        exact ⟨rfl, rfl⟩
      · rw [pipe, if_neg hd]
        constructor
        · rw [ih.1, sourceBytes, sourceBytes, List.takeWhile_cons,
            if_pos (by simpa [isDataChunk, List.isEmpty_iff] using hd)]
          rfl
        · exact ih.2

/-- Claim C3: A session is dropped exactly when the drop period is positive
and divides the 1-based sequence number — a decision depending only on
those two values; a dropped session never dials upstream and forwards zero
bytes; a non-dropped session is never dropped by this rule and proceeds to
the (optional) delay and the upstream dial. -/
theorem C3_drop_semantics :
    ∀ (dropEvery delayMs connIdx : Nat) (dialOk : Bool)
      (clientReads upstreamReads : List ReadEv),
      (handle dropEvery delayMs connIdx dialOk clientReads upstreamReads =
          SessionOutcome.droppedClient
        ↔ 0 < dropEvery ∧ connIdx % dropEvery = 0)
      ∧ (0 < dropEvery → connIdx % dropEvery = 0 →
          (handle dropEvery delayMs connIdx dialOk clientReads upstreamReads).dialed = false
          ∧ (handle dropEvery delayMs connIdx dialOk clientReads
              upstreamReads).upstreamBytes = [])
      ∧ (dropEvery = 0 ∨ connIdx % dropEvery ≠ 0 →
          (handle dropEvery delayMs connIdx dialOk clientReads upstreamReads).dialed = true
          ∧ handle dropEvery delayMs connIdx dialOk clientReads upstreamReads ≠
              SessionOutcome.droppedClient
          ∧ (handle dropEvery delayMs connIdx dialOk clientReads
              upstreamReads).delayApplied = (if 0 < delayMs then delayMs else 0)) := by
  intro N dms s ok cr ur
  by_cases hdrop : 0 < N ∧ s % N = 0
  · refine ⟨by simp [handle, hdrop], fun _ _ => ?_, fun hcon => ?_⟩
    · simp [handle, hdrop, SessionOutcome.dialed, SessionOutcome.upstreamBytes]
    · exact absurd hdrop (by omega)
  · refine ⟨?_, fun h1 h2 => absurd ⟨h1, h2⟩ hdrop, fun _ => ?_⟩
    · cases ok <;>
        simp [handle, hdrop]
    · cases ok <;>
        simp [handle, hdrop, SessionOutcome.dialed, SessionOutcome.delayApplied]

/-- Witness for C3: with drop period 3, session 3 is dropped without a
dial, and session 4 proceeds to the dial. -/
theorem C3_drop_semantics_witness :
    ((handle 3 0 3 true [] []).dialed = false
      ∧ (handle 3 0 3 true [] []).upstreamBytes = [])
    ∧ (handle 3 0 4 true [] []).dialed = true :=
  ⟨(C3_drop_semantics 3 0 3 true [] []).2.1 (by decide) (by decide),
    ((C3_drop_semantics 3 0 4 true [] []).2.2 (by decide)).1⟩

end Wavry
